/-
Verification of the SmartHomeMobileInterfaceProject music subsystem.

This file gives a shallow embedding of the repository's playback logic and
proves (or refutes) the specification's claims about it:
  * `IndependentMusicPlayer` (src/independent-music-player.js, and the variant
    in src/unnamed/part_002): play / pause / stop / nextTrack / previousTrack /
    setPlaylist / search and the demo-track fallback;
  * the Spotify helpers (getStoredAccessToken, spotifyApiRequest) and the
    SpotifyPlayer transport commands;
  * the service-worker fetch handler (src/sw.js).

JavaScript numbers that matter here are integers, so indices are modelled as
`Int` (Array.prototype.findIndex returns -1 when no element matches, and the
JS `%` operator is the truncating remainder, `Int.tmod`).  Asynchronous
operations that can fail against the environment (the media element's
`play()`, a network `fetch`) take the environment's outcome as an explicit
argument.
-/
import Mathlib

namespace SmartHome

/-- A normalized track record, as built by the player and its search paths
(`id`, `title`, `artist`, `genre`, `duration`, `artwork`, `url`, `source`,
`license`, `attribution`). -/
structure Track where
  id : String
  title : String := ""
  artist : String := ""
  genre : String := ""
  duration : Nat := 0
  artwork : Option String := none
  url : String := ""
  source : String := ""
  license : String := ""
  attribution : String := ""
deriving Repr, DecidableEq

/-- The observable state of `IndependentMusicPlayer`: `currentTrack`,
`isPlaying`, `playlist`, `currentIndex` (constructor fields of the class). -/
structure PlayerState where
  currentTrack : Option Track
  isPlaying : Bool
  playlist : List Track
  currentIndex : Int
deriving Repr, DecidableEq

/-- The constructor's initial state: no current track, not playing, empty
playlist, index 0. -/
def initState : PlayerState :=
  { currentTrack := none, isPlaying := false, playlist := [], currentIndex := 0 }

/-- JavaScript `Array.prototype.findIndex`: index of the first element
satisfying the predicate, and -1 when none does. -/
def jsFindIndex (p : Track → Bool) : List Track → Int
  | [] => -1
  | t :: ts =>
    if p t then 0
    else
      let r := jsFindIndex p ts
      if r < 0 then -1 else r + 1

/-- JavaScript array indexing `a[i]`: `undefined` (here `none`) outside
`[0, length)`. -/
def jsIndexGet (l : List Track) (idx : Int) : Option Track :=
  if 0 ≤ idx then l[idx.toNat]? else none

/-- The argument of `play`: omitted, a track id string, or a track object. -/
inductive PlayArg where
  | omitted : PlayArg
  | byId (id : String) : PlayArg
  | byTrack (t : Track) : PlayArg
deriving Repr, DecidableEq

/-- The failure causes inside `play`'s try block: the two explicit `throw`s
('No tracks available to play', 'Track not found') and a rejected
`audioElement.play()` promise (the media locator cannot be opened). -/
inductive PlayerError where
  | noTracksAvailable : PlayerError
  | trackNotFound : PlayerError
  | mediaLoadFailure : PlayerError
deriving Repr, DecidableEq

/-- What a call to `play` produces: its boolean return value, the player state
after the call, and the error emitted through `onError` (if any).  The JS
method catches every failure, emits `onError` and returns `false`. -/
structure PlayOutcome where
  result : Bool
  state : PlayerState
  err : Option PlayerError
deriving Repr, DecidableEq

/-- The tail of `play` once a track object is in hand: set `currentTrack`,
set `currentIndex` by `findIndex` on the track's id, load the url and await
`audioElement.play()` (outcome `audioOk`); on success set `isPlaying`.
A rejected play is caught after the two assignments, which are not rolled
back. -/
def playResolved (st : PlayerState) (t : Track) (audioOk : Bool) : PlayOutcome :=
  let st1 := { st with
    currentTrack := some t,
    currentIndex := jsFindIndex (fun u => u.id == t.id) st.playlist }
  if audioOk then
    ⟨true, { st1 with isPlaying := true }, none⟩
  else
    ⟨false, st1, some .mediaLoadFailure⟩

/-- `IndependentMusicPlayer.play(track)`.  With no argument: resume the
current track if one exists, else fall back to playlist index 0, else throw
'No tracks available to play'.  With a string: look the id up in the playlist
('Track not found' when absent).  With a track object: `playResolved`. -/
def play (st : PlayerState) (arg : PlayArg) (audioOk : Bool) : PlayOutcome :=
  match arg with
  | .omitted =>
    match st.currentTrack with
    | some _ =>
      if audioOk then ⟨true, { st with isPlaying := true }, none⟩
      else ⟨false, st, some .mediaLoadFailure⟩
    | none =>
      match st.playlist with
      | [] => ⟨false, st, some .noTracksAvailable⟩
      | t :: _ => playResolved st t audioOk
  | .byId i =>
    match st.playlist.find? (fun t => t.id == i) with
    | none => ⟨false, st, some .trackNotFound⟩
    | some t => playResolved st t audioOk
  | .byTrack t => playResolved st t audioOk

/-- `play` viewed as a state transformer with its emitted error (the boolean
return value dropped), used where the JS code calls `this.play(...)` without
using the result. -/
def playSE (st : PlayerState) (arg : PlayArg) (audioOk : Bool) :
    PlayerState × Option PlayerError :=
  let o := play st arg audioOk
  (o.state, o.err)

/-- `IndependentMusicPlayer.pause()`: pauses the media element and clears
`isPlaying`. -/
def pause (st : PlayerState) : PlayerState :=
  { st with isPlaying := false }

/-- `IndependentMusicPlayer.stop()`: pauses, rewinds to 0 and clears
`isPlaying` (the position is not part of the observable state here). -/
def stop (st : PlayerState) : PlayerState :=
  { st with isPlaying := false }

/-- `IndependentMusicPlayer.nextTrack()`: no-op on an empty playlist;
otherwise `currentIndex = (currentIndex + 1) % length` followed by
`play(playlist[currentIndex])`. -/
def nextTrack (st : PlayerState) (audioOk : Bool) :
    PlayerState × Option PlayerError :=
  if st.playlist.length = 0 then (st, none)
  else
    let newIdx := (st.currentIndex + 1).tmod st.playlist.length
    let st1 := { st with currentIndex := newIdx }
    match jsIndexGet st1.playlist newIdx with
    | some t => playSE st1 (.byTrack t) audioOk
    | none => playSE st1 .omitted audioOk

/-- `IndependentMusicPlayer.previousTrack()`: no-op on an empty playlist;
otherwise `currentIndex = (currentIndex - 1 + length) % length` followed by
`play(playlist[currentIndex])`. -/
def previousTrack (st : PlayerState) (audioOk : Bool) :
    PlayerState × Option PlayerError :=
  if st.playlist.length = 0 then (st, none)
  else
    let newIdx := (st.currentIndex - 1 + st.playlist.length).tmod st.playlist.length
    let st1 := { st with currentIndex := newIdx }
    match jsIndexGet st1.playlist newIdx with
    | some t => playSE st1 (.byTrack t) audioOk
    | none => playSE st1 .omitted audioOk

/-- `IndependentMusicPlayer.setPlaylist(tracks)`: replaces the playlist and
resets `currentIndex` to 0; `currentTrack` and `isPlaying` are untouched. -/
def setPlaylist (st : PlayerState) (tracks : List Track) : PlayerState :=
  { st with playlist := tracks, currentIndex := 0 }

/-- The handler registered on the media element's `ended` event in
`initialize()`: it calls `this.nextTrack()`. -/
def onEnded (st : PlayerState) (audioOk : Bool) :
    PlayerState × Option PlayerError :=
  nextTrack st audioOk

/-! ### Search and the demo-track fallback -/

/-- JavaScript `x || d` on a nullable string: `d` when `x` is `null`,
`undefined` or the empty string (all falsy). -/
def jsOrStr (o : Option String) (d : String) : String :=
  match o with
  | some s => if s = "" then d else s
  | none => d

/-- JavaScript `x || null` on a nullable string: an empty string is falsy and
collapses to `null`. -/
def jsOrNull (o : Option String) : Option String :=
  match o with
  | some s => if s = "" then none else some s
  | none => none

/-- `getDemoTracks()`: the built-in fallback list of three tracks returned
when no API key is configured or the remote lookup fails. -/
def getDemoTracks : List Track :=
  [ { id := "demo-1", title := "Sunny Day", artist := "Bensound",
      genre := "Upbeat", duration := 240,
      artwork := some "https://images.unsplash.com/photo-1470225620780-dba8ba36b745?w=300&h=300&fit=crop",
      url := "https://cors.eu.org/https://www.bensound.com/bensound-music/bensound-sunny.mp3",
      source := "Bensound", license := "CC-BY 3.0",
      attribution := "Sunny by Bensound" },
    { id := "demo-2", title := "Ukulele", artist := "Bensound",
      genre := "Upbeat", duration := 240,
      artwork := some "https://images.unsplash.com/photo-1514525253161-7a46d19cd819?w=300&h=300&fit=crop",
      url := "https://cors.eu.org/https://www.bensound.com/bensound-music/bensound-ukulele.mp3",
      source := "Bensound", license := "CC-BY 3.0",
      attribution := "Ukulele by Bensound" },
    { id := "demo-3", title := "Relaxing", artist := "Bensound",
      genre := "Ambient", duration := 240,
      artwork := some "https://images.unsplash.com/photo-1493225457124-a3eb161ffa5f?w=300&h=300&fit=crop",
      url := "https://cors.eu.org/https://www.bensound.com/bensound-music/bensound-relaxing.mp3",
      source := "Bensound", license := "CC-BY 3.0",
      attribution := "Relaxing by Bensound" } ]

/-- `getLocalTracks()`: returns the empty array in the source. -/
def getLocalTracks : List Track := []

/-- JavaScript `String.prototype.includes`: the empty pattern is always
contained; otherwise `splitOn` yields at least two pieces exactly when the
pattern occurs. -/
def jsIncludes (s pat : String) : Bool :=
  if pat = "" then true else (s.splitOn pat).length ≥ 2

/-- `searchLocalArtists(query)`: filters the local tracks by title, artist or
genre containing the query (case-insensitive); its catch returns `[]`. -/
def searchLocalArtists (query : String) : List Track :=
  getLocalTracks.filter (fun t =>
    jsIncludes t.title.toLower query.toLower ||
    jsIncludes t.artist.toLower query.toLower ||
    jsIncludes t.genre.toLower query.toLower)

/-- One hit of the Pixabay music API response, with the fields the mapping in
`searchPixabay` reads (`artists?.[0]?.name` collapsed to an optional name). -/
structure PixabayHit where
  id : Nat
  title : String
  artistName : Option String
  genre : Option String
  duration : Option Nat
  image : Option String
  audio : String
deriving Repr, DecidableEq

/-- The environment-visible outcome of the `fetch` to the Pixabay API: the
promise rejects, or a response arrives with its `ok` flag and (when `json()`
succeeds) a parsed body whose `hits` field may be absent. -/
inductive FetchOutcome where
  | networkError : FetchOutcome
  | response (resOk : Bool) (json : Except Unit (Option (List PixabayHit))) : FetchOutcome
deriving Repr

/-- The configuration and network environment `searchPixabay` runs against:
the configured Pixabay API key and the outcome of the remote request. -/
structure SearchEnv where
  pixabayKey : String
  fetch : FetchOutcome
deriving Repr

/-- The track normalization applied to each Pixabay hit. -/
def mapPixabayHit (h : PixabayHit) : Track :=
  { id := "pixabay-" ++ toString h.id,
    title := h.title,
    artist := jsOrStr h.artistName "Pixabay Artist",
    genre := jsOrStr h.genre "Instrumental",
    duration := h.duration.getD 0,
    artwork := jsOrNull h.image,
    url := h.audio,
    source := "Pixabay",
    license := "CC0 (Public Domain)",
    attribution := h.title ++ " by " ++ jsOrStr h.artistName "Pixabay" }

/-- The try block of `searchPixabay`: early demo-track return when the key is
unset or the placeholder; then the fetch, the `response.ok` check ('Pixabay
API error'), the `json()` parse, and the mapping over `data.hits || []`.
Every `.error` is a thrown exception reaching the catch. -/
def searchPixabayTry (env : SearchEnv) : Except Unit (List Track) :=
  if env.pixabayKey = "" ∨ env.pixabayKey = "YOUR_PIXABAY_API_KEY_HERE" then
    .ok getDemoTracks
  else
    match env.fetch with
    | .networkError => .error ()
    | .response resOk json =>
      if !resOk then .error ()
      else
        match json with
        | .error _ => .error ()
        | .ok hits => .ok ((hits.getD []).map mapPixabayHit)

/-- `searchPixabay(query)`: the try block with its catch, which logs and
returns `getDemoTracks()`. -/
def searchPixabay (env : SearchEnv) : List Track :=
  match searchPixabayTry env with
  | .ok l => l
  | .error _ => getDemoTracks

/-- The non-fatal failure `search` would report through `onError`. -/
inductive SearchError where
  | searchFailed : SearchError
deriving Repr, DecidableEq

/-- `search(query)`: concatenates the Pixabay results and the local-artist
results.  Both sub-searches handle their own failures internally, so the try
block cannot throw; the catch (which would emit 'Search failed' and return
`[]`) is therefore never taken, and the second component is always `none`. -/
def search (env : SearchEnv) (query : String) : List Track × Option SearchError :=
  (searchPixabay env ++ searchLocalArtists query, none)

/-! ### Spotify session and transport commands -/

/-- The durable browser storage consumed by the Spotify helpers: the
`spotify_access_token` and `spotify_token_expiry` entries. -/
structure SpotifyStorage where
  accessToken : Option String
  tokenExpiry : Option Int
deriving Repr, DecidableEq

/-- The empty storage left behind after an invalidation. -/
def clearedStorage : SpotifyStorage := { accessToken := none, tokenExpiry := none }

/-- `getStoredAccessToken()`: `null` when the token or the expiry entry is
missing; when `Date.now() > expiry` both entries are removed and `null` is
returned; otherwise the token.  Returns the token (if valid) and the storage
after the call. -/
def getStoredAccessToken (now : Int) (s : SpotifyStorage) :
    Option String × SpotifyStorage :=
  match s.accessToken, s.tokenExpiry with
  | some t, some e => if now > e then (none, clearedStorage) else (some t, s)
  | _, _ => (none, s)

/-- The failures `spotifyApiRequest` can throw: 'Not authenticated with
Spotify' (no valid stored session), 'Token expired - please log in again'
(a 401 response), and `API error: status` for other non-2xx responses. -/
inductive SpotifyErr where
  | notAuthenticated : SpotifyErr
  | tokenExpired : SpotifyErr
  | apiError (status : Nat) : SpotifyErr
deriving Repr, DecidableEq

/-- Both session-related failures are 'AuthenticationRequired' in the spec's
taxonomy; `apiError` is its `RemoteServiceError`. -/
def SpotifyErr.isAuthenticationRequired : SpotifyErr → Bool
  | .notAuthenticated => true
  | .tokenExpired => true
  | .apiError _ => false

/-- The outcome of one `spotifyApiRequest` call: the thrown error or success,
the storage after the call, and how many network requests were issued. -/
structure ApiResult where
  result : Except SpotifyErr Unit
  storage : SpotifyStorage
  networkCalls : Nat
deriving Repr

/-- `spotifyApiRequest(endpoint, options)`: read the stored token, throwing
'Not authenticated with Spotify' before any fetch when it is absent or
expired; otherwise issue the fetch (`respStatus` is the response status).
A 401 removes both storage entries and throws; any other non-2xx status
throws `API error`; a 2xx succeeds (`response.ok` is status in [200, 300)). -/
def spotifyApiRequest (now : Int) (s : SpotifyStorage) (respStatus : Nat) :
    ApiResult :=
  match getStoredAccessToken now s with
  | (none, s1) => ⟨.error .notAuthenticated, s1, 0⟩
  | (some _, s1) =>
    if respStatus = 401 then ⟨.error .tokenExpired, clearedStorage, 1⟩
    else if 200 ≤ respStatus ∧ respStatus < 300 then ⟨.ok (), s1, 1⟩
    else ⟨.error (.apiError respStatus), s1, 1⟩

/-- The outcome of one `SpotifyPlayer` transport command: its boolean return
value, the storage afterwards, the number of network requests issued, and the
error its catch logged (if any). -/
structure CmdResult where
  result : Bool
  storage : SpotifyStorage
  networkCalls : Nat
  caught : Option SpotifyErr
deriving Repr, DecidableEq

/-- `SpotifyPlayer.play(trackUri)`: one `spotifyApiRequest` (the device id
only changes the query string); its catch logs and returns `false`. -/
def SpotifyPlayer.playCmd (now : Int) (s : SpotifyStorage) (respStatus : Nat) :
    CmdResult :=
  let r := spotifyApiRequest now s respStatus
  match r.result with
  | .ok _ => ⟨true, r.storage, r.networkCalls, none⟩
  | .error e => ⟨false, r.storage, r.networkCalls, some e⟩

/-- `SpotifyPlayer.pause()`: same request structure as `play`. -/
def SpotifyPlayer.pauseCmd (now : Int) (s : SpotifyStorage) (respStatus : Nat) :
    CmdResult :=
  let r := spotifyApiRequest now s respStatus
  match r.result with
  | .ok _ => ⟨true, r.storage, r.networkCalls, none⟩
  | .error e => ⟨false, r.storage, r.networkCalls, some e⟩

/-- `SpotifyPlayer.nextTrack()`: the skip request, then (only on success)
`getPlaybackState()`, which performs its own request and catches its own
errors, so the command still returns `true`. -/
def SpotifyPlayer.nextCmd (now : Int) (s : SpotifyStorage)
    (respStatus pollStatus : Nat) : CmdResult :=
  let r := spotifyApiRequest now s respStatus
  match r.result with
  | .error e => ⟨false, r.storage, r.networkCalls, some e⟩
  | .ok _ =>
    let r2 := spotifyApiRequest now r.storage pollStatus
    ⟨true, r2.storage, r.networkCalls + r2.networkCalls, none⟩

/-- `SpotifyPlayer.previousTrack()`: same structure as `nextTrack`. -/
def SpotifyPlayer.prevCmd (now : Int) (s : SpotifyStorage)
    (respStatus pollStatus : Nat) : CmdResult :=
  let r := spotifyApiRequest now s respStatus
  match r.result with
  | .error e => ⟨false, r.storage, r.networkCalls, some e⟩
  | .ok _ =>
    let r2 := spotifyApiRequest now r.storage pollStatus
    ⟨true, r2.storage, r.networkCalls + r2.networkCalls, none⟩

/-! ### The service-worker fetch handler (src/sw.js) -/

/-- An HTTP response as the service worker observes it: its status code and
an opaque body tag. -/
structure SWResponse where
  status : Nat
  body : String := ""
deriving Repr, DecidableEq

/-- The versioned cache, keyed by the exact request url; `put` overwrites the
entry for a url. -/
abbrev SWCache := List (String × SWResponse)

/-- `caches.match(request)`: the stored response for this exact request. -/
def cacheMatch (c : SWCache) (req : String) : Option SWResponse :=
  (c.find? (fun e => e.1 == req)).map (fun e => e.2)

/-- `cache.put(request, response)`: store (newest entry wins on match). -/
def cachePut (c : SWCache) (req : String) (r : SWResponse) : SWCache :=
  (req, r) :: c

/-- The outcome of `fetch(request)` against the network: a response, or a
rejected promise. -/
inductive NetResult where
  | ok (r : SWResponse) : NetResult
  | netError : NetResult
deriving Repr, DecidableEq

/-- What the `respondWith` promise resolves to (`none` models resolving with
`undefined`, which surfaces as a network error to the page) together with the
cache afterwards. -/
structure SWOutcome where
  response : Option SWResponse
  cache : SWCache

/-- The cache-first path of the fetch handler: return a cache hit; otherwise
fetch, caching the response only when its status is 200; when the fetch
rejects, fall back to `caches.match(request)` for this exact request. -/
def handleFetch (c : SWCache) (req : String) (net : NetResult) : SWOutcome :=
  match cacheMatch c req with
  | some r => ⟨some r, c⟩
  | none =>
    match net with
    | .ok resp =>
      if resp.status ≠ 200 then ⟨some resp, c⟩
      else ⟨some resp, cachePut c req resp⟩
    | .netError => ⟨cacheMatch c req, c⟩

/-! ### Reachability of player states -/

/-- Player states reachable from the constructor's state by any sequence of
the public operations, each asynchronous outcome and argument arbitrary. -/
inductive Reachable : PlayerState → Prop where
  | init : Reachable initState
  | doPlay (st : PlayerState) (arg : PlayArg) (ok : Bool) :
      Reachable st → Reachable (play st arg ok).state
  | doPause (st : PlayerState) : Reachable st → Reachable (pause st)
  | doStop (st : PlayerState) : Reachable st → Reachable (stop st)
  | doNext (st : PlayerState) (ok : Bool) :
      Reachable st → Reachable (nextTrack st ok).1
  | doPrev (st : PlayerState) (ok : Bool) :
      Reachable st → Reachable (previousTrack st ok).1
  | doSet (st : PlayerState) (ts : List Track) :
      Reachable st → Reachable (setPlaylist st ts)

/-- A `play` argument that cannot leave the playlist index at the sentinel
-1: omitted, looked up by id, or a track object whose id occurs in the
currently loaded playlist. -/
def argResolvesInPlaylist (st : PlayerState) : PlayArg → Prop
  | .byTrack t => t.id ∈ st.playlist.map Track.id
  | _ => True

/-- Reachability restricted to `play` calls whose track argument (when it is
a track object) is present in the loaded playlist. -/
inductive ReachableSafe : PlayerState → Prop where
  | init : ReachableSafe initState
  | doPlay (st : PlayerState) (arg : PlayArg) (ok : Bool) :
      ReachableSafe st → argResolvesInPlaylist st arg →
      ReachableSafe (play st arg ok).state
  | doPause (st : PlayerState) : ReachableSafe st → ReachableSafe (pause st)
  | doStop (st : PlayerState) : ReachableSafe st → ReachableSafe (stop st)
  | doNext (st : PlayerState) (ok : Bool) :
      ReachableSafe st → ReachableSafe (nextTrack st ok).1
  | doPrev (st : PlayerState) (ok : Bool) :
      ReachableSafe st → ReachableSafe (previousTrack st ok).1
  | doSet (st : PlayerState) (ts : List Track) :
      ReachableSafe st → ReachableSafe (setPlaylist st ts)

/-! ### Supporting lemmas -/

/-- Concrete track used by counterexamples and witnesses. -/
def trA : Track := { id := "a", title := "A", url := "a.mp3" }

/-- Second concrete track, with an id distinct from `trA`. -/
def trB : Track := { id := "b", title := "B", url := "b.mp3" }

theorem jsFindIndex_of_forall_false {p : Track → Bool} {l : List Track}
    (h : ∀ x ∈ l, p x = false) : jsFindIndex p l = -1 := by
  induction l with
  | nil => rfl
  | cons a l ih =>
    have ha : p a = false := h a (List.mem_cons_self a l)
    have hl : jsFindIndex p l = -1 := ih fun x hx => h x (List.mem_cons_of_mem a hx)
    simp [jsFindIndex, ha, hl]

theorem jsFindIndex_range_of_mem {p : Track → Bool} {l : List Track} {x : Track}
    (hx : x ∈ l) (hp : p x = true) :
    0 ≤ jsFindIndex p l ∧ jsFindIndex p l < l.length := by
  induction l with
  | nil => cases hx
  | cons a l ih =>
    by_cases ha : p a = true
    · constructor
      · simp [jsFindIndex, ha]
      · simp only [jsFindIndex, ha, if_true, List.length_cons]
        omega
    · rcases List.mem_cons.mp hx with rfl | hx1
      · exact absurd hp ha
      · have hr := ih hx1
        have ha' : p a = false := by simpa using ha
        simp only [jsFindIndex, ha', if_false, Bool.false_eq_true]
        have : ¬ jsFindIndex p l < 0 := by omega
        simp only [this, if_false]
        constructor
        · omega
        · simp only [List.length_cons]
          omega

theorem jsFindIndex_getElem_of_nodup {l : List Track} {k : Nat} {t : Track}
    (hnd : (l.map Track.id).Nodup) (hk : l[k]? = some t) :
    jsFindIndex (fun u => u.id == t.id) l = (k : Int) := by
  induction l generalizing k with
  | nil => simp at hk
  | cons a l ih =>
    rcases Nat.eq_zero_or_pos k with rfl | hkpos
    · simp only [List.getElem?_cons_zero, Option.some.injEq] at hk
      subst hk
      simp [jsFindIndex]
    · obtain ⟨k1, rfl⟩ : ∃ k1, k = k1 + 1 := ⟨k - 1, by omega⟩
      simp only [List.getElem?_cons_succ] at hk
      have htl : (l.map Track.id).Nodup := (List.nodup_cons.mp hnd).2
      have hmem : t ∈ l := by
        have := List.getElem?_eq_some_iff.mp hk
        obtain ⟨hlt, hget⟩ := this
        exact hget ▸ List.getElem_mem hlt
      have hne : (a.id == t.id) = false := by
        have hnotin : a.id ∉ l.map Track.id := (List.nodup_cons.mp hnd).1
        have : t.id ∈ l.map Track.id := List.mem_map_of_mem Track.id hmem
        by_contra hb
        have hb' : a.id = t.id := by
          have := Bool.not_eq_false (a.id == t.id) ▸ hb
          exact beq_iff_eq.mp (by simpa using hb)
        exact hnotin (hb' ▸ this)
      have hrec := ih htl hk
      simp only [jsFindIndex, hne, if_false, Bool.false_eq_true, hrec]
      have : ¬ ((k1 : Int) < 0) := by omega
      simp only [this, if_false]
      push_cast
      ring

theorem jsIndexGet_eq_getElem (l : List Track) (k : Nat) :
    jsIndexGet l (k : Int) = l[k]? := by
  simp [jsIndexGet]

/-- The truncating remainder of JS on two nonnegative operands is the natural
remainder. -/
theorem jsTmod_ofNat (m n : Nat) :
    Int.tmod (m : Int) (n : Int) = ((m % n : Nat) : Int) := by
  simp [Int.tmod]

theorem play_playlist_eq (st : PlayerState) (arg : PlayArg) (ok : Bool) :
    (play st arg ok).state.playlist = st.playlist := by
  cases arg with
  | omitted =>
    cases h : st.currentTrack with
    | some t => cases ok <;> simp [play, h]
    | none =>
      cases hl : st.playlist with
      | nil => simp [play, h, hl]
      | cons a l => cases ok <;> simp [play, h, hl, playResolved]
  | byId i =>
    cases hf : st.playlist.find? (fun t => t.id == i) with
    | none => simp [play, hf]
    | some t => cases ok <;> simp [play, hf, playResolved]
  | byTrack t => cases ok <;> simp [play, playResolved]

theorem play_isPlaying_false (st : PlayerState) (arg : PlayArg) :
    (play st arg false).state.isPlaying = st.isPlaying := by
  cases arg with
  | omitted =>
    cases h : st.currentTrack with
    | some t => simp [play, h]
    | none =>
      cases hl : st.playlist with
      | nil => simp [play, h, hl]
      | cons a l => simp [play, h, hl, playResolved]
  | byId i =>
    cases hf : st.playlist.find? (fun t => t.id == i) with
    | none => simp [play, hf]
    | some t => simp [play, hf, playResolved]
  | byTrack t => simp [play, playResolved]

theorem nextTrack_eq_play (st : PlayerState) (ok : Bool) (i : Nat) (t : Track)
    (hi : st.currentIndex = (i : Int)) (hlt : i < st.playlist.length)
    (ht : st.playlist[(i + 1) % st.playlist.length]? = some t) :
    nextTrack st ok =
      playSE { st with currentIndex := (((i + 1) % st.playlist.length : Nat) : Int) }
        (.byTrack t) ok := by
  have hlen : ¬ st.playlist.length = 0 := by omega
  have hcast : (i : Int) + 1 = ((i + 1 : Nat) : Int) := by push_cast; ring
  have hmod : ((i : Int) + 1).tmod (st.playlist.length : Int) =
      (((i + 1) % st.playlist.length : Nat) : Int) := by
    rw [hcast, jsTmod_ofNat]
  simp only [nextTrack, hlen, if_false, hi, hmod, jsIndexGet_eq_getElem, ht]

theorem previousTrack_eq_play (st : PlayerState) (ok : Bool) (i : Nat) (t : Track)
    (hi : st.currentIndex = (i : Int)) (hlt : i < st.playlist.length)
    (ht : st.playlist[(i + st.playlist.length - 1) % st.playlist.length]? = some t) :
    previousTrack st ok =
      playSE { st with
          currentIndex :=
            (((i + st.playlist.length - 1) % st.playlist.length : Nat) : Int) }
        (.byTrack t) ok := by
  have hlen : ¬ st.playlist.length = 0 := by omega
  have hcast : (i : Int) - 1 + (st.playlist.length : Int) =
      ((i + st.playlist.length - 1 : Nat) : Int) := by omega
  have hmod : ((i : Int) - 1 + (st.playlist.length : Int)).tmod (st.playlist.length : Int) =
      (((i + st.playlist.length - 1) % st.playlist.length : Nat) : Int) := by
    rw [hcast, jsTmod_ofNat]
  simp only [previousTrack, hlen, if_false, hi, hmod, jsIndexGet_eq_getElem, ht]

theorem playSE_byTrack_state (st : PlayerState) (t : Track) (ok : Bool) :
    (playSE st (.byTrack t) ok).1 =
      { st with
        currentTrack := some t,
        currentIndex := jsFindIndex (fun u => u.id == t.id) st.playlist,
        isPlaying := if ok then true else st.isPlaying } := by
  cases ok <;> simp [playSE, play, playResolved]

/-! ### The claims -/

/-- C1: for every playlist of length n > 0 (well-formed: track ids are
distinct within a playlist, the spec's Track invariant) and every current
index i in [0, n), `nextTrack` sets the current index to (i+1) mod n and
`previousTrack` to (i-1+n) mod n, each then invoking `play` on the track at
the new index; on an empty playlist both are no-ops that change nothing. -/
theorem claim1_next_prev_wraparound (st : PlayerState) (ok : Bool)
    (hnd : (st.playlist.map Track.id).Nodup) :
    (st.playlist = [] →
      nextTrack st ok = (st, none) ∧ previousTrack st ok = (st, none)) ∧
    (∀ i : Nat, ∀ tn tp : Track,
      st.currentIndex = (i : Int) → i < st.playlist.length →
      st.playlist[(i + 1) % st.playlist.length]? = some tn →
      st.playlist[(i + st.playlist.length - 1) % st.playlist.length]? = some tp →
      (nextTrack st ok =
          playSE { st with
              currentIndex := (((i + 1) % st.playlist.length : Nat) : Int) }
            (.byTrack tn) ok ∧
        (nextTrack st ok).1.currentIndex =
          (((i + 1) % st.playlist.length : Nat) : Int) ∧
        (nextTrack st ok).1.currentTrack = some tn) ∧
      (previousTrack st ok =
          playSE { st with
              currentIndex :=
                (((i + st.playlist.length - 1) % st.playlist.length : Nat) : Int) }
            (.byTrack tp) ok ∧
        (previousTrack st ok).1.currentIndex =
          (((i + st.playlist.length - 1) % st.playlist.length : Nat) : Int) ∧
        (previousTrack st ok).1.currentTrack = some tp)) := by
  constructor
  · intro hnil
    have hlen : st.playlist.length = 0 := by simp [hnil]
    constructor <;> simp [nextTrack, previousTrack, hlen]
  · intro i tn tp hi hlt htn htp
    have hne := nextTrack_eq_play st ok i tn hi hlt htn
    have hpe := previousTrack_eq_play st ok i tp hi hlt htp
    refine ⟨⟨hne, ?_, ?_⟩, hpe, ?_, ?_⟩
    · rw [hne, playSE_byTrack_state]
      exact jsFindIndex_getElem_of_nodup hnd htn
    · rw [hne, playSE_byTrack_state]
    · rw [hpe, playSE_byTrack_state]
      exact jsFindIndex_getElem_of_nodup hnd htp
    · rw [hpe, playSE_byTrack_state]

/-- A concrete two-track state at index 1, for witnesses. -/
def stAB : PlayerState :=
  { currentTrack := some trB, isPlaying := true, playlist := [trA, trB],
    currentIndex := 1 }

/-- A concrete one-track state at index 0, playing its sole track. -/
def stOne : PlayerState :=
  { currentTrack := some trA, isPlaying := true, playlist := [trA],
    currentIndex := 0 }

/-- Witness for C1 at a concrete two-track playlist with current index 1:
`nextTrack` wraps to index 0 and `previousTrack` also lands on index 0. -/
theorem claim1_witness :
    (nextTrack stAB true).1.currentIndex = 0 ∧
    (previousTrack stAB true).1.currentIndex = 0 := by
  have h := (claim1_next_prev_wraparound stAB true (by decide)).2
    1 trA trA rfl (by decide) (by decide) (by decide)
  exact ⟨h.1.2.1, h.2.2.1⟩

/-- C2: after `setPlaylist([])`, `play()` with no argument and no current
track fails with the `NoTrackAvailable` error ('No tracks available to
play'); the call returns `false` and the error is emitted to the caller
through `onError`, not swallowed silently. -/
theorem claim2_play_on_empty_playlist (st : PlayerState) (ok : Bool)
    (h : st.currentTrack = none) :
    play (setPlaylist st []) .omitted ok =
      ⟨false, setPlaylist st [], some .noTracksAvailable⟩ := by
  simp [play, setPlaylist, h]

/-- Witness for C2 at the constructor's initial state. -/
theorem claim2_witness :
    play (setPlaylist initState []) .omitted true =
      ⟨false, setPlaylist initState [], some .noTracksAvailable⟩ :=
  claim2_play_on_empty_playlist initState true rfl

/-- Counterexample to C3: `play` is not atomic on failure.  From the state
reached by `setPlaylist([trA])` (no current track), `play(trB)` with a media
locator that cannot be opened returns `false`, yet the observable state has
changed: `currentTrack` became `trB` and `currentIndex` became -1. -/
theorem claim3_counterexample :
    (play (setPlaylist initState [trA]) (.byTrack trB) false).result = false ∧
    (play (setPlaylist initState [trA]) (.byTrack trB) false).err =
      some .mediaLoadFailure ∧
    (play (setPlaylist initState [trA]) (.byTrack trB) false).state ≠
      setPlaylist initState [trA] := by
  decide

/-- C3 amended: on any failed `play` the playlist and `isPlaying` are
unchanged; when the failure is `NoTrackAvailable` or `TrackNotFound` (thrown
before any assignment) the whole state is unchanged; but when a track object
was supplied and the media locator cannot be opened, `currentTrack` and
`currentIndex` have already been reassigned and are not rolled back. -/
theorem claim3_amended_play_partial_atomicity (st : PlayerState)
    (arg : PlayArg) (ok : Bool) (hfail : (play st arg ok).result = false) :
    (play st arg ok).state.playlist = st.playlist ∧
    (play st arg ok).state.isPlaying = st.isPlaying ∧
    (((play st arg ok).err = some .noTracksAvailable ∨
        (play st arg ok).err = some .trackNotFound) →
      (play st arg ok).state = st) ∧
    (∀ t : Track, arg = .byTrack t →
      (play st arg ok).state.currentTrack = some t ∧
      (play st arg ok).state.currentIndex =
        jsFindIndex (fun u => u.id == t.id) st.playlist) := by
  cases arg with
  | omitted =>
    cases h : st.currentTrack with
    | some c =>
      cases ok with
      | true => simp [play, h] at hfail
      | false => simp [play, h]
    | none =>
      cases hl : st.playlist with
      | nil => simp [play, h, hl]
      | cons a l =>
        cases ok with
        | true => simp [play, h, hl, playResolved] at hfail
        | false => simp [play, h, hl, playResolved]
  | byId i =>
    cases hf : st.playlist.find? (fun t => t.id == i) with
    | none => simp [play, hf]
    | some c =>
      cases ok with
      | true => simp [play, hf, playResolved] at hfail
      | false => simp [play, hf, playResolved]
  | byTrack c =>
    cases ok with
    | true => simp [play, playResolved] at hfail
    | false => simp [play, playResolved]

/-- Witness for C3 amended: concrete failed `play(trB)` against playlist
`[trA]` keeps the playlist and `isPlaying`, and lands `currentTrack = trB`,
`currentIndex = -1`. -/
theorem claim3_amended_witness :
    (play (setPlaylist initState [trA]) (.byTrack trB) false).state.playlist =
      [trA] ∧
    (play (setPlaylist initState [trA]) (.byTrack trB) false).state.isPlaying =
      false ∧
    (play (setPlaylist initState [trA]) (.byTrack trB) false).state.currentTrack =
      some trB ∧
    (play (setPlaylist initState [trA]) (.byTrack trB) false).state.currentIndex =
      jsFindIndex (fun u => u.id == trB.id) [trA] := by
  have h := claim3_amended_play_partial_atomicity (setPlaylist initState [trA])
    (.byTrack trB) false (by decide)
  exact ⟨h.1, h.2.1, (h.2.2.2 trB rfl).1, (h.2.2.2 trB rfl).2⟩

/-- Counterexample to C4: playing a track object whose id is absent from the
loaded playlist does not leave the current index unchanged — `findIndex`
returns -1 and the index is set to -1 (it was 0 before the call). -/
theorem claim4_counterexample :
    (setPlaylist initState [trA]).currentIndex = 0 ∧
    (play (setPlaylist initState [trA]) (.byTrack trB) true).state.currentIndex
      = -1 := by
  decide

/-- C4 amended: for every loaded playlist and every track object whose id
does not occur in it, `play(track)` sets the current index to the sentinel
-1 (the value of `findIndex` on a miss) while replacing the current track. -/
theorem claim4_amended_absent_track_sets_index_neg_one (st : PlayerState)
    (t : Track) (ok : Bool) (h : ∀ u ∈ st.playlist, u.id ≠ t.id) :
    (play st (.byTrack t) ok).state.currentIndex = -1 ∧
    (play st (.byTrack t) ok).state.currentTrack = some t := by
  have hfi : jsFindIndex (fun u => u.id == t.id) st.playlist = -1 := by
    refine jsFindIndex_of_forall_false fun x hx => ?_
    have := h x hx
    simpa using this
  cases ok <;> simp [play, playResolved, hfi]

/-- Witness for C4 amended at playlist `[trA]` and absent track `trB`. -/
theorem claim4_amended_witness :
    (play (setPlaylist initState [trA]) (.byTrack trB) true).state.currentIndex
      = -1 ∧
    (play (setPlaylist initState [trA]) (.byTrack trB) true).state.currentTrack
      = some trB := by
  have h := claim4_amended_absent_track_sets_index_neg_one
    (setPlaylist initState [trA]) trB true (by decide)
  exact h

/-- C10 (implicit): for a one-track playlist at index 0 whose sole track is
current and playing, `nextTrack` (and `previousTrack`) computes
(0 ± 1 + 1) mod 1 = 0 and invokes `play` on that very track; since the media
element's `ended` listener calls `nextTrack`, the resulting state is a fixed
point of the end-of-track step — the single track restarts indefinitely. -/
theorem claim10_single_track_loops_forever (t : Track) (st : PlayerState)
    (h1 : st.playlist = [t]) (h2 : st.currentIndex = 0)
    (h3 : st.currentTrack = some t) (h4 : st.isPlaying = true) :
    nextTrack st true = playSE st (.byTrack t) true ∧
    previousTrack st true = playSE st (.byTrack t) true ∧
    onEnded st true = (st, none) ∧
    ∀ k : Nat, (fun s => (onEnded s true).1)^[k] st = st := by
  have hlen : st.playlist.length = 1 := by simp [h1]
  have hst1 : ({ st with
      currentIndex := (((0 + 1) % st.playlist.length : Nat) : Int) } : PlayerState)
      = st := by
    cases st
    simp_all
  have hne : nextTrack st true = playSE st (.byTrack t) true := by
    have hx := nextTrack_eq_play st true 0 t h2 (by omega)
      (by rw [hlen, h1]; rfl)
    rw [hst1] at hx
    exact hx
  have hst2 : ({ st with
      currentIndex :=
        (((0 + st.playlist.length - 1) % st.playlist.length : Nat) : Int) } :
      PlayerState) = st := by
    cases st
    simp_all
  have hpe : previousTrack st true = playSE st (.byTrack t) true := by
    have hx := previousTrack_eq_play st true 0 t h2 (by omega)
      (by rw [hlen, h1]; rfl)
    rw [hst2] at hx
    exact hx
  have hfix : playSE st (.byTrack t) true = (st, none) := by
    have hself : jsFindIndex (fun u => u.id == t.id) st.playlist = 0 := by
      simp [h1, jsFindIndex]
    cases st
    simp_all [playSE, play, playResolved]
  refine ⟨hne, hpe, ?_, ?_⟩
  · rw [onEnded, hne, hfix]
  · intro k
    have hstep : (fun s => (onEnded s true).1) st = st := by
      simp only [onEnded, hne, hfix]
    exact Function.iterate_fixed hstep k

/-- Witness for C10: a concrete one-track state is literally a fixed point of
five end-of-track steps. -/
theorem claim10_witness :
    onEnded stOne true = (stOne, none) ∧
    (fun s => (onEnded s true).1)^[5] stOne = stOne := by
  have h := claim10_single_track_loops_forever trA stOne rfl rfl rfl rfl
  exact ⟨h.2.2.1, h.2.2.2 5⟩

/-! ### C5: the index-range invariant -/

/-- The index invariant of the spec's data model: a non-empty playlist has a
current index in [0, length). -/
def indexInv (st : PlayerState) : Prop :=
  st.playlist ≠ [] → 0 ≤ st.currentIndex ∧ st.currentIndex < st.playlist.length

theorem tmod_range (a n : Int) (h0 : 0 ≤ a) (hn : 0 < n) :
    0 ≤ a.tmod n ∧ a.tmod n < n := by
  rw [Int.tmod_eq_emod h0 (le_of_lt hn)]
  exact ⟨Int.emod_nonneg a (by omega), Int.emod_lt_of_pos a hn⟩

theorem jsIndexGet_some_of_range (l : List Track) (idx : Int)
    (h0 : 0 ≤ idx) (hlt : idx < l.length) :
    ∃ t, jsIndexGet l idx = some t ∧ t ∈ l := by
  have hnat : idx.toNat < l.length := by omega
  refine ⟨l.get ⟨idx.toNat, hnat⟩, ?_, List.get_mem l idx.toNat hnat⟩
  have hg : l[idx.toNat]? = some (l.get ⟨idx.toNat, hnat⟩) := by
    rw [List.getElem?_eq_getElem hnat]
    rfl
  simp [jsIndexGet, h0, hg]

theorem play_indexInv (st : PlayerState) (arg : PlayArg) (ok : Bool)
    (h : indexInv st) (ha : argResolvesInPlaylist st arg) :
    indexInv (play st arg ok).state := by
  intro hne
  have hne' : st.playlist ≠ [] := by
    rw [play_playlist_eq] at hne
    exact hne
  cases arg with
  | omitted =>
    cases hc : st.currentTrack with
    | some c =>
      cases ok <;> simpa [play, hc] using h hne'
    | none =>
      cases hl : st.playlist with
      | nil => exact absurd hl hne'
      | cons a l =>
        have hmem : a ∈ st.playlist := by
          rw [hl]
          exact List.mem_cons_self a l
        have hrange := jsFindIndex_range_of_mem
          (p := fun v => v.id == a.id) hmem (by simp)
        cases ok <;> simpa [play, playResolved, hc, hl] using hrange
  | byId i =>
    cases hf : st.playlist.find? (fun t => t.id == i) with
    | none => simpa [play, hf] using h hne'
    | some c =>
      have hmem : c ∈ st.playlist := List.mem_of_find?_eq_some hf
      have hrange := jsFindIndex_range_of_mem
        (p := fun v => v.id == c.id) hmem (by simp)
      cases ok <;> simpa [play, playResolved, hf] using hrange
  | byTrack t =>
    obtain ⟨u, hu, hid⟩ : ∃ u ∈ st.playlist, u.id = t.id := by
      simpa using List.mem_map.mp ha
    have hrange := jsFindIndex_range_of_mem
      (p := fun v => v.id == t.id) hu (by simp [hid])
    cases ok <;> simpa [play, playResolved] using hrange

theorem nextTrack_indexInv (st : PlayerState) (ok : Bool) (h : indexInv st) :
    indexInv (nextTrack st ok).1 := by
  by_cases hlen : st.playlist.length = 0
  · simpa [nextTrack, hlen] using h
  · have hnil : st.playlist ≠ [] := by
      intro hx
      simp [hx] at hlen
    obtain ⟨h0, hlt⟩ := h hnil
    have hn : (0 : Int) < st.playlist.length := by omega
    have hr := tmod_range (st.currentIndex + 1) st.playlist.length (by omega) hn
    obtain ⟨t, hget, hmem⟩ := jsIndexGet_some_of_range st.playlist
      ((st.currentIndex + 1).tmod st.playlist.length) hr.1 hr.2
    have hstep : nextTrack st ok =
        playSE { st with currentIndex := (st.currentIndex + 1).tmod st.playlist.length }
          (.byTrack t) ok := by
      simp only [nextTrack, hlen, if_false, hget]
    rw [hstep]
    exact play_indexInv _ (.byTrack t) ok (fun _ => hr)
      (List.mem_map_of_mem Track.id hmem)

theorem previousTrack_indexInv (st : PlayerState) (ok : Bool) (h : indexInv st) :
    indexInv (previousTrack st ok).1 := by
  by_cases hlen : st.playlist.length = 0
  · simpa [previousTrack, hlen] using h
  · have hnil : st.playlist ≠ [] := by
      intro hx
      simp [hx] at hlen
    obtain ⟨h0, hlt⟩ := h hnil
    have hn : (0 : Int) < st.playlist.length := by omega
    have hr := tmod_range (st.currentIndex - 1 + st.playlist.length)
      st.playlist.length (by omega) hn
    obtain ⟨t, hget, hmem⟩ := jsIndexGet_some_of_range st.playlist
      ((st.currentIndex - 1 + st.playlist.length).tmod st.playlist.length) hr.1 hr.2
    have hstep : previousTrack st ok =
        playSE { st with
            currentIndex :=
              (st.currentIndex - 1 + st.playlist.length).tmod st.playlist.length }
          (.byTrack t) ok := by
      simp only [previousTrack, hlen, if_false, hget]
    rw [hstep]
    exact play_indexInv _ (.byTrack t) ok (fun _ => hr)
      (List.mem_map_of_mem Track.id hmem)

/-- Counterexample to C5: the state reached by `setPlaylist([trA])` followed
by `play(trB)` (a track object absent from the playlist — one of the
operations the claim quantifies over) has a non-empty playlist and
`currentIndex = -1`, outside [0, length). -/
theorem claim5_counterexample :
    Reachable (play (setPlaylist initState [trA]) (.byTrack trB) true).state ∧
    (play (setPlaylist initState [trA]) (.byTrack trB) true).state.playlist ≠ [] ∧
    (play (setPlaylist initState [trA]) (.byTrack trB) true).state.currentIndex
      = -1 := by
  exact ⟨.doPlay _ _ _ (.doSet _ _ .init), by decide, by decide⟩

/-- C5 amended: the index-range invariant holds in every state reachable by
sequences of player operations in which every `play` call's track-object
argument is present in the loaded playlist (`ReachableSafe`); and
`currentIndex` equals 0 immediately after every `setPlaylist` call
(unconditionally). -/
theorem claim5_amended_index_invariant (st : PlayerState)
    (h : ReachableSafe st) :
    (st.playlist ≠ [] →
      0 ≤ st.currentIndex ∧ st.currentIndex < st.playlist.length) ∧
    ∀ ts : List Track, (setPlaylist st ts).currentIndex = 0 := by
  refine ⟨?_, fun ts => rfl⟩
  induction h with
  | init =>
    intro hne
    exact absurd rfl hne
  | doPlay st arg ok hr ha ih => exact play_indexInv st arg ok ih ha
  | doPause st hr ih => exact ih
  | doStop st hr ih => exact ih
  | doNext st ok hr ih => exact nextTrack_indexInv st ok ih
  | doPrev st ok hr ih => exact previousTrack_indexInv st ok ih
  | doSet st ts hr ih =>
    intro hne
    simp only [setPlaylist]
    constructor
    · omega
    · have : ts ≠ [] := hne
      have : 0 < ts.length := List.length_pos.mpr this
      omega

/-- Witness for C5 amended at the safely reachable state
`setPlaylist(initState, [trA])`. -/
theorem claim5_amended_witness :
    0 ≤ (setPlaylist initState [trA]).currentIndex ∧
    (setPlaylist initState [trA]).currentIndex <
      (setPlaylist initState [trA]).playlist.length := by
  have h := claim5_amended_index_invariant (setPlaylist initState [trA])
    (.doSet _ _ .init)
  exact h.1 (by decide)

/-! ### C6: search never fails and falls back to the demo set -/

/-- The remote catalog is unavailable: no usable API key is configured (empty
or the placeholder), the fetch rejects, the response is not ok, or its body
fails to parse. -/
def pixabayUnavailable (env : SearchEnv) : Prop :=
  env.pixabayKey = "" ∨ env.pixabayKey = "YOUR_PIXABAY_API_KEY_HERE" ∨
  env.fetch = .networkError ∨
  (∃ j, env.fetch = .response false j) ∨
  (∃ e, env.fetch = .response true (.error e))

/-- C6: for every query and environment, `search` reports no error to its
caller, and whenever the remote catalog lookup fails (or no API key is
configured) the result is exactly the built-in demo track set. -/
theorem claim6_search_never_fails_falls_back (env : SearchEnv) (q : String) :
    (search env q).2 = none ∧
    (pixabayUnavailable env → (search env q).1 = getDemoTracks) := by
  refine ⟨rfl, ?_⟩
  intro h
  have hloc : searchLocalArtists q = [] := rfl
  have hpix : searchPixabay env = getDemoTracks := by
    unfold searchPixabay searchPixabayTry
    by_cases hkey : env.pixabayKey = "" ∨ env.pixabayKey = "YOUR_PIXABAY_API_KEY_HERE"
    · simp [hkey]
    · simp only [hkey, if_false]
      rcases h with hk | hk | hf | ⟨j, hf⟩ | ⟨e, hf⟩
      · exact absurd (Or.inl hk) hkey
      · exact absurd (Or.inr hk) hkey
      · simp [hf]
      · simp [hf]
      · simp [hf]
  simp [search, hpix, hloc]

/-- Witness for C6 with the source's own configuration (the placeholder API
key) and a rejected fetch. -/
theorem claim6_witness :
    (search ⟨"YOUR_PIXABAY_API_KEY_HERE", .networkError⟩ "jazz").2 = none ∧
    (search ⟨"YOUR_PIXABAY_API_KEY_HERE", .networkError⟩ "jazz").1 =
      getDemoTracks := by
  have h := claim6_search_never_fails_falls_back
    ⟨"YOUR_PIXABAY_API_KEY_HERE", .networkError⟩ "jazz"
  exact ⟨h.1, h.2 (Or.inr (Or.inl rfl))⟩

/-! ### C7 and C8: the remote transport session guard -/

/-- C7: with no valid stored session (no token, no expiry entry, or an
expired timestamp — exactly when `getStoredAccessToken` yields nothing),
every transport command (`play`, `pause`, `nextTrack`, `previousTrack`)
returns `false` with the `AuthenticationRequired` failure ('Not authenticated
with Spotify') and issues zero network requests. -/
theorem claim7_no_session_no_network (now : Int) (s : SpotifyStorage)
    (code1 code2 : Nat) (h : (getStoredAccessToken now s).1 = none) :
    SpotifyPlayer.playCmd now s code1 =
      ⟨false, (getStoredAccessToken now s).2, 0, some .notAuthenticated⟩ ∧
    SpotifyPlayer.pauseCmd now s code1 =
      ⟨false, (getStoredAccessToken now s).2, 0, some .notAuthenticated⟩ ∧
    SpotifyPlayer.nextCmd now s code1 code2 =
      ⟨false, (getStoredAccessToken now s).2, 0, some .notAuthenticated⟩ ∧
    SpotifyPlayer.prevCmd now s code1 code2 =
      ⟨false, (getStoredAccessToken now s).2, 0, some .notAuthenticated⟩ ∧
    SpotifyErr.isAuthenticationRequired .notAuthenticated = true := by
  rcases hx : getStoredAccessToken now s with ⟨o, s2⟩
  rw [hx] at h
  simp only at h
  subst h
  simp [SpotifyPlayer.playCmd, SpotifyPlayer.pauseCmd, SpotifyPlayer.nextCmd,
    SpotifyPlayer.prevCmd, spotifyApiRequest, SpotifyErr.isAuthenticationRequired, hx]

/-- Witness for C7 at empty storage. -/
theorem claim7_witness :
    SpotifyPlayer.playCmd 0 ⟨none, none⟩ 200 =
      ⟨false, ⟨none, none⟩, 0, some .notAuthenticated⟩ ∧
    SpotifyPlayer.nextCmd 0 ⟨none, none⟩ 200 200 =
      ⟨false, ⟨none, none⟩, 0, some .notAuthenticated⟩ := by
  have h := claim7_no_session_no_network 0 ⟨none, none⟩ 200 200 rfl
  exact ⟨h.1, h.2.2.1⟩

/-- C8: a 401 response during an authenticated call removes both stored
session entries and fails with an `AuthenticationRequired` failure ('Token
expired - please log in again'); from the cleared storage every subsequent
authenticated call fails with `AuthenticationRequired` ('Not authenticated
with Spotify') and issues no network request, until a new token is stored. -/
theorem claim8_401_invalidates_session (now : Int) (s : SpotifyStorage)
    (h : (getStoredAccessToken now s).1.isSome) :
    (spotifyApiRequest now s 401).result = .error .tokenExpired ∧
    (spotifyApiRequest now s 401).storage = clearedStorage ∧
    SpotifyErr.isAuthenticationRequired .tokenExpired = true ∧
    (∀ now2 code, spotifyApiRequest now2 clearedStorage code =
      ⟨.error .notAuthenticated, clearedStorage, 0⟩) ∧
    (∀ now2 code, SpotifyPlayer.playCmd now2 clearedStorage code =
      ⟨false, clearedStorage, 0, some .notAuthenticated⟩) := by
  rcases hx : getStoredAccessToken now s with ⟨o, s2⟩
  rw [hx] at h
  cases o with
  | none => simp at h
  | some tok =>
    refine ⟨?_, ?_, rfl, ?_, ?_⟩
    · simp [spotifyApiRequest, hx]
    · simp [spotifyApiRequest, hx]
    · intro now2 code
      rfl
    · intro now2 code
      rfl

/-- Witness for C8 with a stored, unexpired token receiving a 401. -/
theorem claim8_witness :
    (spotifyApiRequest 0 ⟨some "tok", some 100⟩ 401).result =
      .error .tokenExpired ∧
    (spotifyApiRequest 0 ⟨some "tok", some 100⟩ 401).storage = clearedStorage ∧
    spotifyApiRequest 5 clearedStorage 200 =
      ⟨.error .notAuthenticated, clearedStorage, 0⟩ := by
  have h := claim8_401_invalidates_session 0 ⟨some "tok", some 100⟩ (by decide)
  exact ⟨h.1, h.2.1, h.2.2.2.1 5 200⟩

/-! ### C9: the service-worker cache policy -/

/-- C9: the cache-first fetch path stores a response into the cache only when
its status equals 200 (the cache changes only by a `put` of a 200 network
response for this request); on network failure it falls back to the cached
response for this exact request, and to `undefined` (a propagated network
error) when none exists. -/
theorem claim9_sw_cache_policy (c : SWCache) (req : String) (net : NetResult) :
    ((handleFetch c req net).cache ≠ c →
      ∃ resp, net = .ok resp ∧ resp.status = 200 ∧
        (handleFetch c req net).cache = cachePut c req resp ∧
        (handleFetch c req net).response = some resp) ∧
    (net = .netError →
      (handleFetch c req net).response = cacheMatch c req ∧
      (handleFetch c req net).cache = c) := by
  cases hm : cacheMatch c req with
  | some r =>
    constructor
    · intro hne
      exact absurd (by simp [handleFetch, hm]) hne
    · intro hnet
      subst hnet
      simp [handleFetch, hm]
  | none =>
    cases net with
    | ok resp =>
      by_cases hs : resp.status = 200
      · constructor
        · intro _
          exact ⟨resp, rfl, hs, by simp [handleFetch, hm, hs],
            by simp [handleFetch, hm, hs]⟩
        · intro hnet
          exact NetResult.noConfusion hnet
      · constructor
        · intro hne
          exact absurd (by simp [handleFetch, hm, hs]) hne
        · intro hnet
          exact NetResult.noConfusion hnet
    | netError =>
      constructor
      · intro hne
        exact absurd (by simp [handleFetch, hm]) hne
      · intro _
        simp [handleFetch, hm]

/-- Witness for C9: a 200 response for an uncached request is stored; on a
network failure with the request cached, the cached response is served. -/
theorem claim9_witness :
    (handleFetch [] "/styles.css" (.ok ⟨200, "ok"⟩)).cache =
      cachePut [] "/styles.css" ⟨200, "ok"⟩ ∧
    (handleFetch [("/app.js", ⟨200, "cached"⟩)] "/app.js" .netError).response =
      cacheMatch [("/app.js", ⟨200, "cached"⟩)] "/app.js" := by
  have h1 := claim9_sw_cache_policy [] "/styles.css" (.ok ⟨200, "ok"⟩)
  have h2 := claim9_sw_cache_policy [("/app.js", ⟨200, "cached"⟩)] "/app.js"
    .netError
  refine ⟨?_, (h2.2 rfl).1⟩
  obtain ⟨resp, hok, h200, hc, hr⟩ := h1.1 (by decide)
  cases hok
  exact hc

end SmartHome
